import Mathlib

/-!
Verification of the fantasy-competition roster engine, transfer accounting
and round lifecycle, shallowly embedded from `src/context/GameContext.tsx`
and the team-selection screen.  Player ids are integers (the source treats
`playerId <= 0` as invalid), prices and points are integers, timestamps are
integers, and the React component state
`(selectedPlayers, captainId, totalPoints, transfersUsed)` is a record that
each operation transforms, paired with the outcome branch the source takes
(each `Alert`/early-return branch becomes an error constructor).
-/

namespace FantasyCompetition

/-- Record `Player` from `types.ts`: `id`, `name`, `price`, `qualified`,
optional accumulated `points` (defaulted to 0). -/
structure Player where
  id : Int
  name : String
  price : Int
  qualified : Bool
  points : Int
deriving DecidableEq, Repr

/-- Record `Round` from `types.ts`: `round` number, `deadline` (timestamp as
integer epoch), `playersAllowed`, `budget` (`none` = unlimited/null),
`isClosed` (optional in TS, absent is falsy). -/
structure Round where
  round : Nat
  deadline : Int
  playersAllowed : Nat
  budget : Option Int
  isClosed : Bool
deriving DecidableEq, Repr

/-- Record `PointsConfig` from `types.ts`. -/
structure PointsConfig where
  correctAnswer : Int
  wrongAnswer : Int
  transferPenalty : Int
  freeTransfersPerRound : Nat
deriving DecidableEq, Repr

/-- The roster-related React state of `GameProvider`:
`selectedPlayers`, `captainId`, `totalPoints`, `transfersUsed`. -/
structure GameState where
  selectedPlayers : List Int
  captainId : Option Int
  totalPoints : Int
  transfersUsed : Nat
deriving DecidableEq, Repr

/-- The initial provider state: no players selected, no captain,
zero points, zero transfers used. -/
def initialState : GameState :=
  { selectedPlayers := [], captainId := none, totalPoints := 0, transfersUsed := 0 }

/-- Lookup `players.find(p => p.id === playerId)`. -/
def findPlayer (players : List Player) (playerId : Int) : Option Player :=
  players.find? (fun p => decide (p.id = playerId))

/-- The price a selected id contributes: `player?.price || 0`
(0 when the id does not resolve in the catalog). -/
def priceOf (players : List Player) (playerId : Int) : Int :=
  match findPlayer players playerId with
  | some p => p.price
  | none => 0

/-- Spend `selectedPlayers.reduce((sum, id) => sum + (player?.price || 0), 0)`:
the total price of the current selection, as computed both by
`getRemainingBudget` and by the budget check in `saveTeam`. -/
def spentOn (players : List Player) (selected : List Int) : Int :=
  (selected.map (priceOf players)).sum

/-- Lookup `getCurrentRoundInfo`: `rounds.find(r => r.round === currentRound)`. -/
def getCurrentRoundInfo (rounds : List Round) (currentRound : Nat) : Option Round :=
  rounds.find? (fun r => decide (r.round = currentRound))

/-- Predicate `canSelectPlayer` from `GameContext.tsx` (lines 341-361): requires a
resolvable current round, the player not already selected, team size below
`playersAllowed`, the player resolvable in the catalog, and (when the budget
is bounded) `player.price <= budget - spent`. -/
def canSelectPlayer (players : List Player) (rounds : List Round) (currentRound : Nat)
    (selected : List Int) (playerId : Int) : Bool :=
  match getCurrentRoundInfo rounds currentRound with
  | none => false
  | some roundInfo =>
    if selected.contains playerId then false
    else if roundInfo.playersAllowed ≤ selected.length then false
    else
      match findPlayer players playerId with
      | none => false
      | some player =>
        match roundInfo.budget with
        | none => true
        | some b => decide (player.price ≤ b - spentOn players selected)

/-- Outcome branches of `selectPlayer`: invalid id alert, player-not-found
alert, silent validation failure, or success. -/
inductive SelectResult where
  | ok
  | invalidId
  | playerNotFound
  | cannotSelect
deriving DecidableEq, Repr

/-- Operation `selectPlayer` from `GameContext.tsx` (lines 363-392): rejects
non-positive ids and ids missing from the catalog, then appends the id to
`selectedPlayers` iff `canSelectPlayer` passes. -/
def selectPlayer (players : List Player) (rounds : List Round) (currentRound : Nat)
    (st : GameState) (playerId : Int) : GameState × SelectResult :=
  if playerId ≤ 0 then (st, .invalidId)
  else
    match findPlayer players playerId with
    | none => (st, .playerNotFound)
    | some _ =>
      if canSelectPlayer players rounds currentRound st.selectedPlayers playerId then
        ({ st with selectedPlayers := st.selectedPlayers ++ [playerId] }, .ok)
      else (st, .cannotSelect)

/-- Outcome branches of `removePlayer`. -/
inductive RemoveResult where
  | ok
  | invalidId
  | playerNotFound
  | notInTeam
deriving DecidableEq, Repr

/-- Operation `removePlayer` from `GameContext.tsx` (lines 394-446): rejects
non-positive ids, ids missing from the catalog, and ids not currently
selected; otherwise filters the id out of `selectedPlayers`, clears the
captain if the removed player was captain, always increments
`transfersUsed`, and deducts `transferPenalty` from `totalPoints` exactly
when `freeTransfersPerRound - transfersUsed <= 0` before the increment. -/
def removePlayer (players : List Player) (cfg : PointsConfig)
    (st : GameState) (playerId : Int) : GameState × RemoveResult :=
  if playerId ≤ 0 then (st, .invalidId)
  else
    match findPlayer players playerId with
    | none => (st, .playerNotFound)
    | some _ =>
      if st.selectedPlayers.contains playerId then
        let newSelection := st.selectedPlayers.filter (fun q => decide (q ≠ playerId))
        let newCaptain := if st.captainId = some playerId then none else st.captainId
        let freeTransfersRemaining : Int :=
          (cfg.freeTransfersPerRound : Int) - (st.transfersUsed : Int)
        if freeTransfersRemaining ≤ 0 then
          ({ selectedPlayers := newSelection, captainId := newCaptain,
             totalPoints := st.totalPoints - cfg.transferPenalty,
             transfersUsed := st.transfersUsed + 1 }, .ok)
        else
          ({ selectedPlayers := newSelection, captainId := newCaptain,
             totalPoints := st.totalPoints,
             transfersUsed := st.transfersUsed + 1 }, .ok)
      else (st, .notInTeam)

/-- Outcome branches of `setCaptain`. -/
inductive CaptainResult where
  | ok
  | invalidId
  | playerNotFound
  | notInTeam
deriving DecidableEq, Repr

/-- Operation `setCaptain` from `GameContext.tsx` (lines 448-487): `null` clears the
captain unconditionally; a non-null id must be positive, resolve in the
catalog, and be currently selected, in that order of checks. -/
def setCaptain (players : List Player) (st : GameState) :
    Option Int → GameState × CaptainResult
  | none => ({ st with captainId := none }, .ok)
  | some x =>
    if x ≤ 0 then (st, .invalidId)
    else
      match findPlayer players x with
      | none => (st, .playerNotFound)
      | some _ =>
        if st.selectedPlayers.contains x then ({ st with captainId := some x }, .ok)
        else (st, .notInTeam)

/-- Loop body of `determinCurrentRoundFromData` (lines 55-78): `current` starts at 1 and
the loop overwrites it with the first round whose deadline is strictly
after `now`, then breaks; when no round qualifies `current` stays 1. -/
def firstUpcoming (now : Int) : List Round → Nat
  | [] => 1
  | r :: rs => if now < r.deadline then r.round else firstUpcoming now rs

/-- Function `determinCurrentRoundFromData` top level: an empty list short-circuits
to 1, otherwise the scan `firstUpcoming` runs. -/
def determinCurrentRoundFromData (roundsData : List Round) (now : Int) : Nat :=
  if roundsData.isEmpty then 1 else firstUpcoming now roundsData

/-- Outcome branches of `saveTeam` (lines 495-629), in source order: missing
user, unresolvable round, closed round, wrong team size, stale players,
captain outside the team, budget exceeded, and finally the submitted
payload `(userId, round, selectedPlayers, captainId)`. -/
inductive SaveOutcome where
  | authRequired
  | invalidRound
  | roundClosed
  | incompleteTeam
  | invalidTeam
  | invalidCaptain
  | budgetExceeded
  | saved (userId : String) (round : Nat) (selectedPlayers : List Int) (captainId : Option Int)
deriving DecidableEq, Repr

/-- Operation `saveTeam` from `GameContext.tsx` (lines 495-629) as the pure validation
pipeline it runs before submitting; the roster state is never mutated by
this function in the source (no state setter is called on any path), so the
embedding returns only the outcome.  Note that the only round-lifecycle
check is `roundInfo.isClosed`; the deadline is not consulted. -/
def saveTeam : Option String → List Player → List Round → Nat → GameState → SaveOutcome
  | none, _, _, _, _ => .authRequired
  | some uid, players, rounds, currentRound, st =>
    if uid = "" then .authRequired
    else
      match getCurrentRoundInfo rounds currentRound with
      | none => .invalidRound
      | some roundInfo =>
        if roundInfo.isClosed then .roundClosed
        else if st.selectedPlayers.length ≠ roundInfo.playersAllowed then .incompleteTeam
        else if (st.selectedPlayers.filter (fun pid => (findPlayer players pid).isNone)).length > 0 then
          .invalidTeam
        else if (match st.captainId with
                 | some c => ! st.selectedPlayers.contains c
                 | none => false) then .invalidCaptain
        else
          match roundInfo.budget with
          | some b =>
            if spentOn players st.selectedPlayers > b then .budgetExceeded
            else .saved uid currentRound st.selectedPlayers st.captainId
          | none => .saved uid currentRound st.selectedPlayers st.captainId

/-- Baseline capture from `TeamSelectionScreen` (the effect on lines 83-88):
`initialPlayers` is set to the current selection the first time the
selection reaches exactly `playersAllowed` while the baseline is still
empty. -/
def updateInitialPlayers : Option Round → List Int → List Int → List Int
  | some r, initialPlayers, selectedPlayers =>
    if selectedPlayers.length = r.playersAllowed ∧ initialPlayers.length = 0 then
      selectedPlayers
    else initialPlayers
  | none, initialPlayers, _ => initialPlayers

/-- Transfer banner count from `TeamSelectionScreen` (the effect on lines
90-100): once a baseline exists, the number of currently selected players
not present in the baseline; zero before a baseline exists. -/
def transferCount (initialPlayers selectedPlayers : List Int) : Nat :=
  if 0 < initialPlayers.length then
    (selectedPlayers.filter (fun p => decide (¬ initialPlayers.contains p))).length
  else 0

/-- Roster states reachable from the initial provider state by any sequence
of `selectPlayer`, `removePlayer` and `setCaptain` calls (unsuccessful calls
leave the state unchanged, so this also covers sequences of only successful
calls) against a fixed catalog, round list and config. -/
inductive Reachable (players : List Player) (rounds : List Round) (currentRound : Nat)
    (cfg : PointsConfig) : GameState → Prop where
  | init : Reachable players rounds currentRound cfg initialState
  | select {st : GameState} (playerId : Int) :
      Reachable players rounds currentRound cfg st →
      Reachable players rounds currentRound cfg
        (selectPlayer players rounds currentRound st playerId).1
  | remove {st : GameState} (playerId : Int) :
      Reachable players rounds currentRound cfg st →
      Reachable players rounds currentRound cfg
        (removePlayer players cfg st playerId).1
  | captain {st : GameState} (playerId : Option Int) :
      Reachable players rounds currentRound cfg st →
      Reachable players rounds currentRound cfg
        (setCaptain players st playerId).1

/-! ### Concrete fixtures used by witnesses and counterexamples -/

/-- Two catalog players with admin-valid prices (5M each). -/
def demoPlayers : List Player :=
  [⟨1, "Ahmed", 5000000, true, 0⟩, ⟨2, "Omar", 5000000, true, 0⟩]

/-- The default points configuration of the provider:
`transferPenalty = 30`, `freeTransfersPerRound = 1`. -/
def demoCfg : PointsConfig := ⟨5, 0, 30, 1⟩

/-- An open two-player round with a 30M budget and future deadline 100. -/
def demoRound : Round := ⟨1, 100, 2, some 30000000, false⟩

/-! ### Case-analysis helper lemmas -/

/-- Either `selectPlayer` rejects and leaves the state unchanged, or passes
`canSelectPlayer` and appends the id. -/
lemma selectPlayer_cases (players : List Player) (rounds : List Round) (currentRound : Nat)
    (st : GameState) (playerId : Int) :
    ((selectPlayer players rounds currentRound st playerId).2 ≠ .ok
      ∧ (selectPlayer players rounds currentRound st playerId).1 = st)
    ∨ ((selectPlayer players rounds currentRound st playerId).2 = .ok
      ∧ canSelectPlayer players rounds currentRound st.selectedPlayers playerId = true
      ∧ (selectPlayer players rounds currentRound st playerId).1 =
          { st with selectedPlayers := st.selectedPlayers ++ [playerId] }) := by
  unfold selectPlayer
  split
  · exact Or.inl ⟨by simp, rfl⟩
  · split
    · exact Or.inl ⟨by simp, rfl⟩
    · split
      · rename_i hcan
        exact Or.inr ⟨rfl, hcan, rfl⟩
      · exact Or.inl ⟨by simp, rfl⟩

/-- Either `removePlayer` rejects and leaves the state unchanged, or the id
was selected and the state is updated: the id filtered out, the captain
cleared if it was the removed id, the penalty charged iff no free transfer
remains, and `transfersUsed` incremented. -/
lemma removePlayer_cases (players : List Player) (cfg : PointsConfig)
    (st : GameState) (playerId : Int) :
    ((removePlayer players cfg st playerId).2 ≠ .ok
      ∧ (removePlayer players cfg st playerId).1 = st)
    ∨ ((removePlayer players cfg st playerId).2 = .ok
      ∧ st.selectedPlayers.contains playerId = true
      ∧ (removePlayer players cfg st playerId).1 =
          { selectedPlayers := st.selectedPlayers.filter (fun q => decide (q ≠ playerId)),
            captainId := if st.captainId = some playerId then none else st.captainId,
            totalPoints := st.totalPoints -
              (if (cfg.freeTransfersPerRound : Int) - (st.transfersUsed : Int) ≤ 0
               then cfg.transferPenalty else 0),
            transfersUsed := st.transfersUsed + 1 }) := by
  unfold removePlayer
  split
  · exact Or.inl ⟨by simp, rfl⟩
  · split
    · exact Or.inl ⟨by simp, rfl⟩
    · split
      · rename_i hmem
        by_cases hfree : (cfg.freeTransfersPerRound : Int) - (st.transfersUsed : Int) ≤ 0
        · exact Or.inr ⟨by simp [hfree], hmem, by simp [hfree]⟩
        · exact Or.inr ⟨by simp [hfree], hmem, by simp [hfree]⟩
      · exact Or.inl ⟨by simp, rfl⟩

/-- Operation `setCaptain` clears the captain on `none`, sets it on a selected id,
and otherwise rejects leaving the state unchanged. -/
lemma setCaptain_cases (players : List Player) (st : GameState) (playerId : Option Int) :
    (playerId = none
      ∧ setCaptain players st playerId = ({ st with captainId := none }, .ok))
    ∨ (∃ x, playerId = some x ∧ st.selectedPlayers.contains x = true
      ∧ setCaptain players st playerId = ({ st with captainId := some x }, .ok))
    ∨ ((setCaptain players st playerId).2 ≠ .ok
      ∧ (setCaptain players st playerId).1 = st) := by
  unfold setCaptain
  match playerId with
  | none => exact Or.inl ⟨rfl, rfl⟩
  | some x =>
    simp only
    split
    · exact Or.inr (Or.inr ⟨by simp, rfl⟩)
    · split
      · exact Or.inr (Or.inr ⟨by simp, rfl⟩)
      · split
        · rename_i hmem
          exact Or.inr (Or.inl ⟨x, rfl, hmem, rfl⟩)
        · exact Or.inr (Or.inr ⟨by simp, rfl⟩)

/-- Unfolding characterization of a successful `canSelectPlayer` check. -/
lemma canSelectPlayer_eq_true (players : List Player) (rounds : List Round)
    (currentRound : Nat) (selected : List Int) (playerId : Int)
    (h : canSelectPlayer players rounds currentRound selected playerId = true) :
    ∃ roundInfo, getCurrentRoundInfo rounds currentRound = some roundInfo
      ∧ selected.contains playerId = false
      ∧ selected.length < roundInfo.playersAllowed
      ∧ ∃ player, findPlayer players playerId = some player
        ∧ ∀ b, roundInfo.budget = some b → player.price ≤ b - spentOn players selected := by
  unfold canSelectPlayer at h
  split at h
  · exact absurd h (by simp)
  · rename_i roundInfo hround
    refine ⟨roundInfo, hround, ?_⟩
    split at h
    · exact absurd h (by simp)
    · split at h
      · exact absurd h (by simp)
      · rename_i hmem hlen
        refine ⟨by simpa using hmem, by omega, ?_⟩
        split at h
        · exact absurd h (by simp)
        · rename_i player hfind
          refine ⟨player, hfind, ?_⟩
          intro b hb
          rw [hb] at h
          simpa using h

/-- Conversely, the budget-bounded success condition makes
`canSelectPlayer` true. -/
lemma canSelectPlayer_of (players : List Player) (rounds : List Round)
    (currentRound : Nat) (selected : List Int) (playerId : Int)
    (roundInfo : Round) (player : Player)
    (hround : getCurrentRoundInfo rounds currentRound = some roundInfo)
    (hmem : selected.contains playerId = false)
    (hlen : selected.length < roundInfo.playersAllowed)
    (hfind : findPlayer players playerId = some player)
    (hbudget : ∀ b, roundInfo.budget = some b → player.price ≤ b - spentOn players selected) :
    canSelectPlayer players rounds currentRound selected playerId = true := by
  unfold canSelectPlayer
  rw [hround]
  simp only [hmem, hfind]
  rw [if_neg (by simp), if_neg (by omega)]
  match hb : roundInfo.budget with
  | none => rfl
  | some b => simpa using hbudget b hb

/-! ### C10: rejected mutations leave the whole roster state unchanged -/

/-- C10: whenever `selectPlayer`, `removePlayer` or `setCaptain` rejects its
input (invalid id, id not in the catalog, player not selectable, or player
not in the roster — every non-`ok` outcome), the entire state
(`selectedPlayers`, `captainId`, `transfersUsed`, `totalPoints`) is left
unchanged; in particular a rejected removal counts no transfer and charges
no penalty. -/
theorem rejected_mutations_leave_state_unchanged :
    (∀ (players : List Player) (rounds : List Round) (currentRound : Nat)
        (st : GameState) (playerId : Int),
      (selectPlayer players rounds currentRound st playerId).2 ≠ SelectResult.ok →
      (selectPlayer players rounds currentRound st playerId).1 = st)
    ∧ (∀ (players : List Player) (cfg : PointsConfig) (st : GameState) (playerId : Int),
      (removePlayer players cfg st playerId).2 ≠ RemoveResult.ok →
      (removePlayer players cfg st playerId).1 = st)
    ∧ (∀ (players : List Player) (st : GameState) (playerId : Option Int),
      (setCaptain players st playerId).2 ≠ CaptainResult.ok →
      (setCaptain players st playerId).1 = st) := by
  refine ⟨?_, ?_, ?_⟩
  · intro players rounds currentRound st playerId h
    rcases selectPlayer_cases players rounds currentRound st playerId with
      ⟨_, heq⟩ | ⟨hok, _, _⟩
    · exact heq
    · exact absurd hok h
  · intro players cfg st playerId h
    rcases removePlayer_cases players cfg st playerId with ⟨_, heq⟩ | ⟨hok, _, _⟩
    · exact heq
    · exact absurd hok h
  · intro players st playerId h
    rcases setCaptain_cases players st playerId with
      ⟨_, heq⟩ | ⟨x, _, _, heq⟩ | ⟨_, heq⟩
    · exact absurd (by rw [heq]) h
    · exact absurd (by rw [heq]) h
    · exact heq

/-- Witness for C10 at concrete rejected calls: selecting id 0 against an
empty catalog, removing id 0, and captaining the unselected id 7 all leave
the initial state intact. -/
theorem rejected_mutations_leave_state_unchanged_witness :
    (selectPlayer [] [] 1 initialState 0).1 = initialState
    ∧ (removePlayer [] demoCfg initialState 0).1 = initialState
    ∧ (setCaptain demoPlayers initialState (some 7)).1 = initialState :=
  ⟨rejected_mutations_leave_state_unchanged.1 [] [] 1 initialState 0 (by decide),
   rejected_mutations_leave_state_unchanged.2.1 [] demoCfg initialState 0 (by decide),
   rejected_mutations_leave_state_unchanged.2.2 demoPlayers initialState (some 7) (by decide)⟩

/-! ### C3: transfer counting and penalty on successful removal -/

/-- C3: every successful removal increments `transfersUsed` by exactly 1,
and the point delta is 0 when the pre-removal `transfersUsed` is below
`freeTransfersPerRound` and `-transferPenalty` otherwise (the check runs
against the counter before the increment). -/
theorem removePlayer_transfer_accounting (players : List Player) (cfg : PointsConfig)
    (st : GameState) (playerId : Int)
    (h : (removePlayer players cfg st playerId).2 = RemoveResult.ok) :
    (removePlayer players cfg st playerId).1.transfersUsed = st.transfersUsed + 1
    ∧ (removePlayer players cfg st playerId).1.totalPoints - st.totalPoints =
        (if st.transfersUsed < cfg.freeTransfersPerRound then 0 else -cfg.transferPenalty) := by
  rcases removePlayer_cases players cfg st playerId with ⟨hne, _⟩ | ⟨_, _, heq⟩
  · exact absurd h hne
  · rw [heq]
    refine ⟨rfl, ?_⟩
    dsimp only
    by_cases hlt : st.transfersUsed < cfg.freeTransfersPerRound
    · rw [if_pos hlt,
        if_neg (show ¬((cfg.freeTransfersPerRound : Int) - (st.transfersUsed : Int) ≤ 0) by
          omega)]
      omega
    · rw [if_neg hlt,
        if_pos (show (cfg.freeTransfersPerRound : Int) - (st.transfersUsed : Int) ≤ 0 by
          omega)]
      omega

/-- Witness for C3, the spec's own scenario with `freeTransfers = 1`,
`transferPenalty = 30`: the first removal of the round leaves the points
unchanged and the second charges 30. -/
theorem removePlayer_transfer_accounting_witness :
    ((removePlayer demoPlayers demoCfg ⟨[1, 2], none, 0, 0⟩ 1).1.transfersUsed = 0 + 1
      ∧ (removePlayer demoPlayers demoCfg ⟨[1, 2], none, 0, 0⟩ 1).1.totalPoints -
          (GameState.mk [1, 2] none 0 0).totalPoints =
          (if 0 < demoCfg.freeTransfersPerRound then 0 else -demoCfg.transferPenalty))
    ∧ ((removePlayer demoPlayers demoCfg ⟨[2], none, 0, 1⟩ 2).1.transfersUsed = 1 + 1
      ∧ (removePlayer demoPlayers demoCfg ⟨[2], none, 0, 1⟩ 2).1.totalPoints -
          (GameState.mk [2] none 0 1).totalPoints =
          (if 1 < demoCfg.freeTransfersPerRound then 0 else -demoCfg.transferPenalty)) :=
  ⟨removePlayer_transfer_accounting demoPlayers demoCfg ⟨[1, 2], none, 0, 0⟩ 1 (by decide),
   removePlayer_transfer_accounting demoPlayers demoCfg ⟨[2], none, 0, 1⟩ 2 (by decide)⟩

/-! ### C2: determination of the current round -/

/-- If every round before the split point has a passed deadline and the
round at the split point is still open, the scan returns its number. -/
lemma firstUpcoming_of_skip (now : Int) (pre : List Round) (r : Round) (post : List Round)
    (hpre : ∀ s ∈ pre, ¬ now < s.deadline) (hr : now < r.deadline) :
    firstUpcoming now (pre ++ r :: post) = r.round := by
  induction pre with
  | nil => simp [firstUpcoming, hr]
  | cons a as ih =>
    have ha : ¬ now < a.deadline := hpre a (by simp)
    simp only [List.cons_append, firstUpcoming, if_neg ha]
    exact ih (fun s hs => hpre s (by simp [hs]))

/-- If every deadline has passed, the scan leaves `current` at its initial
value 1. -/
lemma firstUpcoming_all_past (now : Int) (l : List Round)
    (h : ∀ r ∈ l, ¬ now < r.deadline) : firstUpcoming now l = 1 := by
  induction l with
  | nil => rfl
  | cons a as ih =>
    simp only [firstUpcoming, if_neg (h a (by simp))]
    exact ih (fun r hr => h r (by simp [hr]))

/-- C2 counterexample: with a single round numbered 5 whose deadline (0) is
past `now = 10`, the function returns the sentinel 1, not the first round's
number 5 as the claim states. -/
theorem determinCurrentRound_fallback_counterexample :
    determinCurrentRoundFromData [⟨5, 0, 3, none, false⟩] 10 = 1 ∧ (1 : Nat) ≠ 5 := by
  decide

/-- C2 amended: the scan returns the round number of the first round whose
deadline is strictly after `now`; an empty list yields the sentinel 1; and
when `now` is past every deadline the result is the sentinel 1 as well (the
loop variable `current` is initialized to 1 and never overwritten), not the
first round's own number. -/
theorem determinCurrentRound_amended (roundsData : List Round) (now : Int) :
    (roundsData = [] → determinCurrentRoundFromData roundsData now = 1)
    ∧ (∀ pre r post, roundsData = pre ++ r :: post →
        (∀ s ∈ pre, ¬ now < s.deadline) → now < r.deadline →
        determinCurrentRoundFromData roundsData now = r.round)
    ∧ ((∀ r ∈ roundsData, ¬ now < r.deadline) →
        determinCurrentRoundFromData roundsData now = 1) := by
  refine ⟨?_, ?_, ?_⟩
  · intro h
    simp [determinCurrentRoundFromData, h]
  · intro pre r post hsplit hpre hr
    subst hsplit
    rw [determinCurrentRoundFromData, if_neg (by simp)]
    exact firstUpcoming_of_skip now pre r post hpre hr
  · intro h
    rw [determinCurrentRoundFromData]
    split
    · rfl
    · exact firstUpcoming_all_past now roundsData h

/-- Witness for C2 (amended), the spec's own examples: with round 1 past
and round 2 upcoming the result is 2, and with only a past round 1 the
result is 1. -/
theorem determinCurrentRound_amended_witness :
    determinCurrentRoundFromData [⟨1, 0, 3, none, false⟩, ⟨2, 20, 3, none, false⟩] 10 = 2
    ∧ determinCurrentRoundFromData [⟨1, 0, 3, none, false⟩] 10 = 1 :=
  ⟨(determinCurrentRound_amended [⟨1, 0, 3, none, false⟩, ⟨2, 20, 3, none, false⟩] 10).2.1
      [⟨1, 0, 3, none, false⟩] ⟨2, 20, 3, none, false⟩ [] rfl (by decide) (by decide),
   (determinCurrentRound_amended [⟨1, 0, 3, none, false⟩] 10).2.2 (by decide)⟩

/-! ### saveTeam helper lemmas -/

/-- Inversion for a successful save: every guard of the `saveTeam` pipeline
must have passed, so the submitted payload satisfies all validation
conditions. -/
lemma saveTeam_saved_inversion (user : Option String) (players : List Player)
    (rounds : List Round) (currentRound : Nat) (st : GameState)
    (uid : String) (rnd : Nat) (sel : List Int) (cap : Option Int)
    (h : saveTeam user players rounds currentRound st = SaveOutcome.saved uid rnd sel cap) :
    ∃ roundInfo, getCurrentRoundInfo rounds currentRound = some roundInfo
      ∧ user = some uid ∧ uid ≠ "" ∧ rnd = currentRound
      ∧ sel = st.selectedPlayers ∧ cap = st.captainId
      ∧ roundInfo.isClosed = false
      ∧ st.selectedPlayers.length = roundInfo.playersAllowed
      ∧ (∀ pid ∈ st.selectedPlayers, (findPlayer players pid).isSome)
      ∧ (∀ c, st.captainId = some c → c ∈ st.selectedPlayers)
      ∧ (∀ b, roundInfo.budget = some b → spentOn players st.selectedPlayers ≤ b) := by
  match user with
  | none => exact absurd h (by simp [saveTeam])
  | some u =>
    rw [saveTeam] at h
    split at h
    · exact absurd h (by simp)
    · rename_i hu
      split at h
      · exact absurd h (by simp)
      · rename_i roundInfo hround
        split at h
        · exact absurd h (by simp)
        · rename_i hclosed
          split at h
          · exact absurd h (by simp)
          · rename_i hsize
            split at h
            · exact absurd h (by simp)
            · rename_i hinv
              split at h
              · exact absurd h (by simp)
              · rename_i hcap
                have hmembers : ∀ pid ∈ st.selectedPlayers, (findPlayer players pid).isSome := by
                  intro pid hpid
                  by_contra hnone
                  have hfil : pid ∈ st.selectedPlayers.filter
                      (fun q => (findPlayer players q).isNone) := by
                    refine List.mem_filter.mpr ⟨hpid, ?_⟩
                    simpa [Option.isNone_iff_eq_none, Option.isSome_iff_ne_none] using hnone
                  have : 0 < (st.selectedPlayers.filter
                      (fun q => (findPlayer players q).isNone)).length :=
                    List.length_pos.mpr (List.ne_nil_of_mem hfil)
                  omega
                have hcapok : ∀ c, st.captainId = some c → c ∈ st.selectedPlayers := by
                  intro c hc
                  rw [hc] at hcap
                  simp only [Bool.not_eq_true] at hcap
                  simpa using hcap
                split at h
                · rename_i b hb
                  split at h
                  · exact absurd h (by simp)
                  · rename_i hbud
                    obtain ⟨h1, h2, h3, h4⟩ := SaveOutcome.saved.inj h
                    refine ⟨roundInfo, hround, by rw [h1], h1 ▸ hu, h2.symm, h3.symm, h4.symm,
                      by simpa using hclosed, by omega, hmembers, hcapok, ?_⟩
                    intro b' hb'
                    rw [hb] at hb'
                    obtain rfl := Option.some.inj hb'
                    omega
                · rename_i hb
                  obtain ⟨h1, h2, h3, h4⟩ := SaveOutcome.saved.inj h
                  refine ⟨roundInfo, hround, by rw [h1], h1 ▸ hu, h2.symm, h3.symm, h4.symm,
                    by simpa using hclosed, by omega, hmembers, hcapok, ?_⟩
                  intro b' hb'
                  rw [hb] at hb'
                  exact absurd hb' (by simp)

/-- Direct evaluation of `saveTeam` down to the team-size check: with a
logged-in user, a resolvable open round, and a wrong team size, the outcome
is `incompleteTeam`. -/
lemma saveTeam_eval_incomplete (uid : String) (players : List Player)
    (rounds : List Round) (currentRound : Nat) (st : GameState) (roundInfo : Round)
    (hne : uid ≠ "")
    (hround : getCurrentRoundInfo rounds currentRound = some roundInfo)
    (hclosed : roundInfo.isClosed = false)
    (hsize : st.selectedPlayers.length ≠ roundInfo.playersAllowed) :
    saveTeam (some uid) players rounds currentRound st = SaveOutcome.incompleteTeam := by
  rw [saveTeam, if_neg hne, hround]
  simp only [hclosed, Bool.false_eq_true, if_false, if_pos hsize]

/-! ### C4: the round-closed gate of saveTeam -/

/-- C4 counterexample: against a round whose deadline (0) is already past
(`now = 10` or any later instant) but whose `isClosed` flag is false,
`saveTeam` accepts a valid full team and submits it — the deadline alone
does not make the save fail, refuting the claim. -/
theorem saveTeam_deadline_counterexample :
    saveTeam (some "u") demoPlayers [⟨1, 0, 2, some 30000000, false⟩] 1 ⟨[1, 2], none, 0, 0⟩
      = SaveOutcome.saved "u" 1 [1, 2] none
    ∧ (Round.mk 1 0 2 (some 30000000) false).deadline < 10
    ∧ (Round.mk 1 0 2 (some 30000000) false).isClosed = false := by
  decide

/-- C4 amended: with a logged-in user and a resolvable current round,
`saveTeam` rejects with the round-closed condition exactly when the round's
`isClosed` flag is set; the deadline is never consulted by `saveTeam`
(deadline gating happens only upstream, in current-round determination). -/
theorem saveTeam_roundClosed_amended (uid : String) (players : List Player)
    (rounds : List Round) (currentRound : Nat) (st : GameState) (roundInfo : Round)
    (hne : uid ≠ "")
    (hround : getCurrentRoundInfo rounds currentRound = some roundInfo) :
    saveTeam (some uid) players rounds currentRound st = SaveOutcome.roundClosed
      ↔ roundInfo.isClosed = true := by
  rw [saveTeam, if_neg hne]
  split
  · rename_i hnone
    rw [hnone] at hround
    exact absurd hround (by simp)
  · rename_i ri hsome
    rw [hsome] at hround
    obtain rfl : ri = roundInfo := Option.some.inj hround
    by_cases hc : ri.isClosed
    · simp [hc]
    · rw [if_neg hc]
      constructor
      · intro h
        exfalso
        split at h
        · exact SaveOutcome.noConfusion h
        · split at h
          · exact SaveOutcome.noConfusion h
          · split at h
            · exact SaveOutcome.noConfusion h
            · split at h
              · split at h
                · exact SaveOutcome.noConfusion h
                · exact SaveOutcome.noConfusion h
              · exact SaveOutcome.noConfusion h
      · intro h
        exact absurd h hc

/-- Witness for C4 (amended): a closed demo round is rejected as
round-closed. -/
theorem saveTeam_roundClosed_amended_witness :
    saveTeam (some "u") demoPlayers [⟨1, 100, 2, some 30000000, true⟩] 1 ⟨[1, 2], none, 0, 0⟩
      = SaveOutcome.roundClosed :=
  (saveTeam_roundClosed_amended "u" demoPlayers [⟨1, 100, 2, some 30000000, true⟩] 1
    ⟨[1, 2], none, 0, 0⟩ ⟨1, 100, 2, some 30000000, true⟩ (by decide) (by decide)).mpr rfl

/-! ### C7: what pre-save validation checks, and how it reports -/

/-- C7 counterexample: a roster violating two conditions at once (size 1 of
the 2 required, and a captain id 3 outside the selection) is reported only
as `incompleteTeam` — the first violated check — with no mention of the
captain violation, refuting the all-violations-collected claim. -/
theorem saveTeam_shortcircuit_counterexample :
    saveTeam (some "u") demoPlayers [demoRound] 1 ⟨[1], some 3, 0, 0⟩
      = SaveOutcome.incompleteTeam
    ∧ (GameState.mk [1] (some 3) 0 0).captainId = some 3
    ∧ (3 : Int) ∉ (GameState.mk [1] (some 3) 0 0).selectedPlayers
    ∧ SaveOutcome.incompleteTeam ≠ SaveOutcome.invalidCaptain := by
  decide

/-- C7 amended: pre-save validation does check all of — exact squad size,
every selected player resolving in the catalog, captain membership, budget
when bounded, and round not closed — in the sense that a save is submitted
only when all of them hold; but violations are reported one at a time,
short-circuiting on the first failed check rather than collecting them. -/
theorem saveTeam_checks_all_conditions (user : Option String) (players : List Player)
    (rounds : List Round) (currentRound : Nat) (st : GameState) (roundInfo : Round)
    (uid : String) (rnd : Nat) (sel : List Int) (cap : Option Int)
    (hround : getCurrentRoundInfo rounds currentRound = some roundInfo)
    (h : saveTeam user players rounds currentRound st = SaveOutcome.saved uid rnd sel cap) :
    roundInfo.isClosed = false
    ∧ st.selectedPlayers.length = roundInfo.playersAllowed
    ∧ (∀ pid ∈ st.selectedPlayers, (findPlayer players pid).isSome)
    ∧ (∀ c, st.captainId = some c → c ∈ st.selectedPlayers)
    ∧ (∀ b, roundInfo.budget = some b → spentOn players st.selectedPlayers ≤ b) := by
  obtain ⟨ri, hround', _, _, _, _, _, hclosed, hlen, hmem, hcap, hbud⟩ :=
    saveTeam_saved_inversion user players rounds currentRound st uid rnd sel cap h
  rw [hround'] at hround
  obtain rfl : ri = roundInfo := Option.some.inj hround
  exact ⟨hclosed, hlen, hmem, hcap, hbud⟩

/-- Witness for C7 (amended) at a concrete successful save: the demo round
is open, the team has the exact size, player 1 resolves, the captain is a
member, and the spend fits the budget. -/
theorem saveTeam_checks_all_conditions_witness :
    demoRound.isClosed = false
    ∧ (GameState.mk [1, 2] (some 1) 0 0).selectedPlayers.length = demoRound.playersAllowed
    ∧ (findPlayer demoPlayers 1).isSome
    ∧ (1 : Int) ∈ (GameState.mk [1, 2] (some 1) 0 0).selectedPlayers
    ∧ spentOn demoPlayers (GameState.mk [1, 2] (some 1) 0 0).selectedPlayers ≤ 30000000 := by
  obtain ⟨w1, w2, w3, w4, w5⟩ :=
    saveTeam_checks_all_conditions (some "u") demoPlayers [demoRound] 1
      ⟨[1, 2], some 1, 0, 0⟩ demoRound "u" 1 [1, 2] (some 1) (by decide) (by decide)
  exact ⟨w1, w2, w3 1 (by decide), w4 1 rfl, w5 30000000 (by decide)⟩

/-! ### C9: incomplete team blocks the save -/

/-- C9: when the selection size differs from the round's `playersAllowed`,
no submission payload is ever produced, and — with a logged-in user and the
round open — the reported condition is exactly `incompleteTeam`.  In the
source, `saveTeam` mutates no roster state on any path (it calls no state
setter), which the embedding reflects by returning only an outcome. -/
theorem saveTeam_incomplete_no_save (user : Option String) (players : List Player)
    (rounds : List Round) (currentRound : Nat) (st : GameState) (roundInfo : Round)
    (hround : getCurrentRoundInfo rounds currentRound = some roundInfo)
    (hsize : st.selectedPlayers.length ≠ roundInfo.playersAllowed) :
    (∀ uid rnd sel cap,
      saveTeam user players rounds currentRound st ≠ SaveOutcome.saved uid rnd sel cap)
    ∧ (∀ uid, user = some uid → uid ≠ "" → roundInfo.isClosed = false →
        saveTeam user players rounds currentRound st = SaveOutcome.incompleteTeam) := by
  constructor
  · intro uid rnd sel cap h
    obtain ⟨ri, hround', _, _, _, _, _, _, hlen, _, _, _⟩ :=
      saveTeam_saved_inversion user players rounds currentRound st uid rnd sel cap h
    rw [hround'] at hround
    obtain rfl : ri = roundInfo := Option.some.inj hround
    exact hsize hlen
  · intro uid huser hne hclosed
    subst huser
    exact saveTeam_eval_incomplete uid players rounds currentRound st roundInfo
      hne hround hclosed hsize

/-- Witness for C9: a 1-of-2 roster is not submitted and reports
`incompleteTeam`. -/
theorem saveTeam_incomplete_no_save_witness :
    saveTeam (some "u") demoPlayers [demoRound] 1 ⟨[1], none, 0, 0⟩
      ≠ SaveOutcome.saved "u" 1 [1] none
    ∧ saveTeam (some "u") demoPlayers [demoRound] 1 ⟨[1], none, 0, 0⟩
      = SaveOutcome.incompleteTeam :=
  ⟨(saveTeam_incomplete_no_save (some "u") demoPlayers [demoRound] 1
      ⟨[1], none, 0, 0⟩ demoRound (by decide) (by decide)).1 "u" 1 [1] none,
   (saveTeam_incomplete_no_save (some "u") demoPlayers [demoRound] 1
      ⟨[1], none, 0, 0⟩ demoRound (by decide) (by decide)).2 "u" rfl (by decide) (by decide)⟩

/-! ### C8: setCaptain semantics -/

/-- A positive id that resolves in the catalog and is currently selected is
accepted as captain. -/
lemma setCaptain_some_of_mem (players : List Player) (st : GameState) (x : Int)
    (hpos : 0 < x) (hfind : (findPlayer players x).isSome)
    (hmem : x ∈ st.selectedPlayers) :
    setCaptain players st (some x) = ({ st with captainId := some x }, CaptainResult.ok) := by
  simp only [setCaptain]
  rw [if_neg (show ¬ x ≤ 0 by omega)]
  obtain ⟨p, hp⟩ := Option.isSome_iff_exists.mp hfind
  rw [hp]
  simp [hmem]

/-- C8 counterexample: player id 3 is not in the roster `[1]`, yet
`setCaptain 3` fails with the player-not-found branch (id 3 is absent from
the catalog), not the not-in-roster branch the claim requires. -/
theorem setCaptain_error_kind_counterexample :
    (setCaptain demoPlayers ⟨[1], none, 0, 0⟩ (some 3)).2 = CaptainResult.playerNotFound
    ∧ (3 : Int) ∉ (GameState.mk [1] none 0 0).selectedPlayers
    ∧ CaptainResult.playerNotFound ≠ CaptainResult.notInTeam := by
  decide

/-- C8 amended: `setCaptain null` always succeeds and clears the captain;
when every selected id is positive and resolves in the catalog,
`setCaptain x` succeeds iff `x` is selected, and re-setting the current
captain is a successful no-op; a failed call leaves the state unchanged,
but the failure kind is not-in-roster only when `x` resolves in the
catalog — a non-positive `x` fails as invalid-id and an `x` absent from
the catalog fails as player-not-found. -/
theorem setCaptain_amended :
    (∀ (players : List Player) (st : GameState),
      setCaptain players st none = ({ st with captainId := none }, CaptainResult.ok))
    ∧ (∀ (players : List Player) (st : GameState) (x : Int),
      (∀ q ∈ st.selectedPlayers, 0 < q ∧ (findPlayer players q).isSome) →
      ((setCaptain players st (some x)).2 = CaptainResult.ok ↔ x ∈ st.selectedPlayers))
    ∧ (∀ (players : List Player) (st : GameState) (x : Int),
      st.captainId = some x → 0 < x → (findPlayer players x).isSome →
      x ∈ st.selectedPlayers →
      setCaptain players st (some x) = (st, CaptainResult.ok))
    ∧ (∀ (players : List Player) (st : GameState) (x : Int),
      x ∉ st.selectedPlayers →
      (setCaptain players st (some x)).1 = st
      ∧ (setCaptain players st (some x)).2 ≠ CaptainResult.ok)
    ∧ (∀ (players : List Player) (st : GameState) (x : Int),
      x ≤ 0 → (setCaptain players st (some x)).2 = CaptainResult.invalidId)
    ∧ (∀ (players : List Player) (st : GameState) (x : Int),
      0 < x → findPlayer players x = none →
      (setCaptain players st (some x)).2 = CaptainResult.playerNotFound)
    ∧ (∀ (players : List Player) (st : GameState) (x : Int),
      0 < x → (findPlayer players x).isSome → x ∉ st.selectedPlayers →
      (setCaptain players st (some x)).2 = CaptainResult.notInTeam) := by
  refine ⟨fun players st => rfl, ?_, ?_, ?_, ?_, ?_, ?_⟩
  · intro players st x hwf
    constructor
    · intro h
      rcases setCaptain_cases players st (some x) with
        ⟨hnone, _⟩ | ⟨y, hy, hmem, _⟩ | ⟨hne, _⟩
      · exact Option.noConfusion hnone
      · obtain rfl : x = y := Option.some.inj hy
        simpa using hmem
      · exact absurd h hne
    · intro hmem
      obtain ⟨hpos, hfind⟩ := hwf x hmem
      rw [setCaptain_some_of_mem players st x hpos hfind hmem]
  · intro players st x hcap hpos hfind hmem
    rw [setCaptain_some_of_mem players st x hpos hfind hmem]
    cases st
    simp_all
  · intro players st x hnot
    rcases setCaptain_cases players st (some x) with
      ⟨hnone, _⟩ | ⟨y, hy, hmem, _⟩ | ⟨hne, hst⟩
    · exact Option.noConfusion hnone
    · obtain rfl : x = y := Option.some.inj hy
      exact absurd (by simpa using hmem) hnot
    · exact ⟨hst, hne⟩
  · intro players st x hx
    simp only [setCaptain]
    rw [if_pos hx]
  · intro players st x hpos hnone
    simp only [setCaptain]
    rw [if_neg (show ¬ x ≤ 0 by omega), hnone]
  · intro players st x hpos hfind hnot
    simp only [setCaptain]
    rw [if_neg (show ¬ x ≤ 0 by omega)]
    obtain ⟨p, hp⟩ := Option.isSome_iff_exists.mp hfind
    rw [hp]
    simp [hnot]

/-- Witness for C8 (amended) on the demo roster `[1]` with captain 1:
clearing works, captaining the selected 1 is an accepted no-op, and
captaining the unselected catalog player 2 is rejected. -/
theorem setCaptain_amended_witness :
    setCaptain demoPlayers ⟨[1], some 1, 0, 0⟩ none
      = ({ GameState.mk [1] (some 1) 0 0 with captainId := none }, CaptainResult.ok)
    ∧ ((setCaptain demoPlayers ⟨[1], some 1, 0, 0⟩ (some 1)).2 = CaptainResult.ok
        ↔ (1 : Int) ∈ (GameState.mk [1] (some 1) 0 0).selectedPlayers)
    ∧ setCaptain demoPlayers ⟨[1], some 1, 0, 0⟩ (some 1)
      = (⟨[1], some 1, 0, 0⟩, CaptainResult.ok)
    ∧ (setCaptain demoPlayers ⟨[1], some 1, 0, 0⟩ (some 2)).2 = CaptainResult.notInTeam :=
  ⟨setCaptain_amended.1 demoPlayers ⟨[1], some 1, 0, 0⟩,
   setCaptain_amended.2.1 demoPlayers ⟨[1], some 1, 0, 0⟩ 1 (by decide),
   setCaptain_amended.2.2.1 demoPlayers ⟨[1], some 1, 0, 0⟩ 1 rfl (by decide) (by decide)
     (by decide),
   setCaptain_amended.2.2.2.2.2.2 demoPlayers ⟨[1], some 1, 0, 0⟩ 2 (by decide) (by decide)
     (by decide)⟩

/-! ### C5: the pre-save transfer banner count -/

/-- C5: the banner transfer count is 0 before a baseline is established
(`initialPlayers` empty); the baseline is captured as the current selection
exactly when the roster reaches `playersAllowed` members while no baseline
exists, and an established baseline is never overwritten; and once a
baseline exists the count is `|current \ baseline|`, the number of
currently selected players that are not in the locked-in set. -/
theorem transferCount_spec :
    (∀ current : List Int, transferCount [] current = 0)
    ∧ (∀ (r : Round) (initial selected : List Int),
        initial = [] → selected.length = r.playersAllowed →
        updateInitialPlayers (some r) initial selected = selected)
    ∧ (∀ (roundInfo : Option Round) (initial selected : List Int),
        initial ≠ [] → updateInitialPlayers roundInfo initial selected = initial)
    ∧ (∀ (initial current : List Int), initial ≠ [] → current.Nodup →
        transferCount initial current = (current.toFinset \ initial.toFinset).card) := by
  refine ⟨?_, ?_, ?_, ?_⟩
  · intro current
    simp [transferCount]
  · intro r initial selected hinit hlen
    subst hinit
    simp [updateInitialPlayers, hlen]
  · intro roundInfo initial selected hne
    match roundInfo with
    | none => rfl
    | some r =>
      have hlen : 0 < initial.length := List.length_pos.mpr hne
      simp only [updateInitialPlayers]
      rw [if_neg
        (show ¬(selected.length = r.playersAllowed ∧ initial.length = 0) by omega)]
  · intro initial current hne hnodup
    rw [transferCount, if_pos (List.length_pos.mpr hne)]
    have hsub : (current.filter (fun p => decide (¬ initial.contains p))).toFinset
        = current.toFinset \ initial.toFinset := by
      ext a
      simp [List.mem_filter]
    rw [← hsub, List.toFinset_card_of_nodup (hnodup.filter _)]

/-- Witness for C5 on concrete selections: no baseline gives count 0, a
full 2-player selection is captured as baseline, an existing baseline
`[1, 2]` survives, and swapping 2 for 3 counts exactly one transfer. -/
theorem transferCount_spec_witness :
    transferCount [] [1, 2] = 0
    ∧ updateInitialPlayers (some demoRound) [] [1, 2] = [1, 2]
    ∧ updateInitialPlayers (some demoRound) [1, 2] [1, 3] = [1, 2]
    ∧ transferCount [1, 2] [1, 3]
        = (([1, 3] : List Int).toFinset \ (([1, 2] : List Int).toFinset)).card :=
  ⟨transferCount_spec.1 [1, 2],
   transferCount_spec.2.1 demoRound [] [1, 2] rfl (by decide),
   transferCount_spec.2.2.1 (some demoRound) [1, 2] [1, 3] (by decide),
   transferCount_spec.2.2.2 [1, 2] [1, 3] (by decide) (by decide)⟩

/-! ### C1: roster invariants over reachable states -/

/-- Every price contribution is nonnegative when the catalog's prices are
(admin entry validates prices into the 1M-10M band). -/
lemma priceOf_nonneg (players : List Player) (hprices : ∀ p ∈ players, 0 ≤ p.price)
    (playerId : Int) : 0 ≤ priceOf players playerId := by
  cases hf : findPlayer players playerId with
  | none => simp [priceOf, hf]
  | some p =>
    have hp := hprices p (List.mem_of_find?_eq_some hf)
    simpa [priceOf, hf] using hp

/-- Appending one id adds its price to the spend. -/
lemma spentOn_append (players : List Player) (l : List Int) (x : Int) :
    spentOn players (l ++ [x]) = spentOn players l + priceOf players x := by
  simp [spentOn]

/-- Filtering a selection can only lower the spend when prices are
nonnegative. -/
lemma spentOn_filter_le (players : List Player) (hprices : ∀ p ∈ players, 0 ≤ p.price)
    (sel : List Int) (f : Int → Bool) :
    spentOn players (sel.filter f) ≤ spentOn players sel := by
  unfold spentOn
  apply List.Sublist.sum_le_sum ((sel.filter_sublist).map (priceOf players))
  intro x hx
  obtain ⟨pid, _, rfl⟩ := List.mem_map.mp hx
  exact priceOf_nonneg players hprices pid

/-- C1: with the current round resolvable, nonnegative catalog prices and a
nonnegative budget bound, every state reachable from the empty roster by
any sequence of `selectPlayer`, `removePlayer` and `setCaptain` calls keeps
the squad at most `playersAllowed`, the spend within the budget, and the
captain (when set) a member of the selection. -/
theorem roster_invariants (players : List Player) (rounds : List Round)
    (currentRound : Nat) (cfg : PointsConfig) (round : Round) (st : GameState)
    (hround : getCurrentRoundInfo rounds currentRound = some round)
    (hprices : ∀ p ∈ players, 0 ≤ p.price)
    (hbudget : ∀ b, round.budget = some b → 0 ≤ b)
    (hreach : Reachable players rounds currentRound cfg st) :
    st.selectedPlayers.length ≤ round.playersAllowed
    ∧ (∀ b, round.budget = some b → spentOn players st.selectedPlayers ≤ b)
    ∧ (∀ c, st.captainId = some c → c ∈ st.selectedPlayers) := by
  induction hreach with
  | init =>
    refine ⟨by simp [initialState], ?_, ?_⟩
    · intro b hb
      have := hbudget b hb
      simpa [initialState, spentOn] using this
    · intro c hc
      exact absurd hc (by simp [initialState])
  | @select st' playerId hst ih =>
    rcases selectPlayer_cases players rounds currentRound st' playerId with
      ⟨_, heq⟩ | ⟨_, hcan, heq⟩
    · rw [heq]; exact ih
    · obtain ⟨ri, hri, hmem, hlen, player, hfind, hbud⟩ :=
        canSelectPlayer_eq_true players rounds currentRound st'.selectedPlayers playerId hcan
      rw [hround] at hri
      obtain rfl : round = ri := Option.some.inj hri
      rw [heq]
      refine ⟨?_, ?_, ?_⟩
      · dsimp only
        simp only [List.length_append, List.length_cons, List.length_nil]
        omega
      · intro b hb
        dsimp only
        rw [spentOn_append]
        have hpr : priceOf players playerId = player.price := by
          simp [priceOf, hfind]
        have hb2 := hbud b hb
        omega
      · intro c hc
        dsimp only at hc ⊢
        exact List.mem_append.mpr (Or.inl (ih.2.2 c hc))
  | @remove st' playerId hst ih =>
    rcases removePlayer_cases players cfg st' playerId with ⟨_, heq⟩ | ⟨_, hmem, heq⟩
    · rw [heq]; exact ih
    · rw [heq]
      refine ⟨?_, ?_, ?_⟩
      · dsimp only
        exact le_trans (List.length_filter_le _ _) ih.1
      · intro b hb
        dsimp only
        exact le_trans (spentOn_filter_le players hprices _ _) (ih.2.1 b hb)
      · intro c hc
        dsimp only at hc ⊢
        by_cases hcap : st'.captainId = some playerId
        · rw [if_pos hcap] at hc
          exact Option.noConfusion hc
        · rw [if_neg hcap] at hc
          refine List.mem_filter.mpr ⟨ih.2.2 c hc, ?_⟩
          simp only [decide_eq_true_eq]
          intro h2
          exact hcap (h2 ▸ hc)
  | @captain st' playerId hst ih =>
    rcases setCaptain_cases players st' playerId with
      ⟨_, heq⟩ | ⟨x, _, hmemx, heq⟩ | ⟨_, heq1⟩
    · rw [heq]
      refine ⟨ih.1, ih.2.1, ?_⟩
      intro c hc
      exact absurd hc (by simp)
    · rw [heq]
      refine ⟨ih.1, ih.2.1, ?_⟩
      intro c hc
      dsimp only at hc ⊢
      obtain rfl : x = c := Option.some.inj hc
      simpa using hmemx
    · rw [heq1]; exact ih

/-- Witness for C1: after one reachable step (selecting player 1 into the
empty roster against the open demo round) the squad size and spend bounds
hold. -/
theorem roster_invariants_witness :
    (selectPlayer demoPlayers [demoRound] 1 initialState 1).1.selectedPlayers.length
      ≤ demoRound.playersAllowed
    ∧ spentOn demoPlayers
        (selectPlayer demoPlayers [demoRound] 1 initialState 1).1.selectedPlayers
      ≤ 30000000 := by
  obtain ⟨h1, h2, _⟩ :=
    roster_invariants demoPlayers [demoRound] 1 demoCfg demoRound
      (selectPlayer demoPlayers [demoRound] 1 initialState 1).1
      (by decide) (by decide)
      (by intro b hb; simp [demoRound] at hb; omega)
      (Reachable.select 1 Reachable.init)
  exact ⟨h1, h2 30000000 (by decide)⟩

/-! ### C6: remove followed by re-select -/

/-- A positive, catalog-resolvable, currently selected id is accepted by
`removePlayer`. -/
lemma removePlayer_isOk (players : List Player) (cfg : PointsConfig)
    (st : GameState) (playerId : Int)
    (hpos : 0 < playerId) (hfind : (findPlayer players playerId).isSome)
    (hmem : st.selectedPlayers.contains playerId = true) :
    (removePlayer players cfg st playerId).2 = RemoveResult.ok := by
  unfold removePlayer
  rw [if_neg (show ¬ playerId ≤ 0 by omega)]
  split
  · rename_i hnone
    rw [hnone] at hfind
    exact Bool.noConfusion hfind
  · rw [if_pos hmem]
    by_cases hc : (cfg.freeTransfersPerRound : Int) - (st.transfersUsed : Int) ≤ 0
    · simp [hc]
    · simp [hc]

/-- A positive, catalog-resolvable id passing `canSelectPlayer` is accepted
by `selectPlayer`. -/
lemma selectPlayer_isOk (players : List Player) (rounds : List Round) (currentRound : Nat)
    (st : GameState) (playerId : Int)
    (hpos : 0 < playerId) (hfind : (findPlayer players playerId).isSome)
    (hcan : canSelectPlayer players rounds currentRound st.selectedPlayers playerId = true) :
    (selectPlayer players rounds currentRound st playerId).2 = SelectResult.ok := by
  unfold selectPlayer
  rw [if_neg (show ¬ playerId ≤ 0 by omega)]
  split
  · rename_i hnone
    rw [hnone] at hfind
    exact Bool.noConfusion hfind
  · rw [if_pos hcan]

/-- On duplicate-free lists the boolean filter used by `removePlayer`
coincides with `List.erase`. -/
lemma filter_ne_eq_erase (l : List Int) (a : Int) (h : l.Nodup) :
    l.filter (fun q => decide (q ≠ a)) = l.erase a := by
  rw [List.Nodup.erase_eq_filter h]
  exact (List.filter_congr (fun x _ => by by_cases hx : x = a <;> simp [hx])).symm

/-- The spend is invariant under permutation of the selection. -/
lemma spentOn_perm (players : List Player) {l1 l2 : List Int} (h : List.Perm l1 l2) :
    spentOn players l1 = spentOn players l2 :=
  (h.map (priceOf players)).sum_eq

/-- C6 counterexample: removing the captain (player 1) and immediately
re-selecting it succeeds on both calls, yet `captainId` ends up `none`
instead of the pre-removal `some 1` — the captain is not restored, refuting
the claim that the roster returns to its pre-removal state. -/
theorem remove_then_select_captain_counterexample :
    (removePlayer demoPlayers demoCfg ⟨[1], some 1, 0, 0⟩ 1).2 = RemoveResult.ok
    ∧ (selectPlayer demoPlayers [demoRound] 1
        (removePlayer demoPlayers demoCfg ⟨[1], some 1, 0, 0⟩ 1).1 1).2 = SelectResult.ok
    ∧ (selectPlayer demoPlayers [demoRound] 1
        (removePlayer demoPlayers demoCfg ⟨[1], some 1, 0, 0⟩ 1).1 1).1.selectedPlayers = [1]
    ∧ (GameState.mk [1] (some 1) 0 0).captainId = some 1
    ∧ (selectPlayer demoPlayers [demoRound] 1
        (removePlayer demoPlayers demoCfg ⟨[1], some 1, 0, 0⟩ 1).1 1).1.captainId = none
    ∧ (none : Option Int) ≠ some 1 := by
  decide

/-- C6 amended: from any well-formed roster state (duplicate-free
selection within the squad-size and budget bounds) removing a selected,
catalog-resolvable player and immediately re-selecting it succeeds on both
calls and restores the membership of `selectedPlayers` exactly, while
`transfersUsed` grows by exactly 1; `captainId` is restored only when the
removed player was not the captain — if it was, the captaincy is cleared by
the removal and stays cleared. -/
theorem remove_then_select_amended (players : List Player) (rounds : List Round)
    (currentRound : Nat) (cfg : PointsConfig) (st : GameState) (playerId : Int)
    (player : Player) (round : Round)
    (hround : getCurrentRoundInfo rounds currentRound = some round)
    (hfind : findPlayer players playerId = some player)
    (hpos : 0 < playerId)
    (hmem : playerId ∈ st.selectedPlayers)
    (hnodup : st.selectedPlayers.Nodup)
    (hlen : st.selectedPlayers.length ≤ round.playersAllowed)
    (hspent : ∀ b, round.budget = some b → spentOn players st.selectedPlayers ≤ b) :
    (removePlayer players cfg st playerId).2 = RemoveResult.ok
    ∧ (selectPlayer players rounds currentRound (removePlayer players cfg st playerId).1
        playerId).2 = SelectResult.ok
    ∧ (∀ q, q ∈ (selectPlayer players rounds currentRound
          (removePlayer players cfg st playerId).1 playerId).1.selectedPlayers
        ↔ q ∈ st.selectedPlayers)
    ∧ (selectPlayer players rounds currentRound (removePlayer players cfg st playerId).1
        playerId).1.captainId
        = (if st.captainId = some playerId then none else st.captainId)
    ∧ (selectPlayer players rounds currentRound (removePlayer players cfg st playerId).1
        playerId).1.transfersUsed = st.transfersUsed + 1 := by
  have hcont : st.selectedPlayers.contains playerId = true := by simpa using hmem
  have hok : (removePlayer players cfg st playerId).2 = RemoveResult.ok :=
    removePlayer_isOk players cfg st playerId hpos (by rw [hfind]; rfl) hcont
  rcases removePlayer_cases players cfg st playerId with ⟨hne, _⟩ | ⟨_, _, heq1⟩
  · exact absurd hok hne
  have hsel1 : (removePlayer players cfg st playerId).1.selectedPlayers
      = st.selectedPlayers.filter (fun q => decide (q ≠ playerId)) := by rw [heq1]
  have hcap1 : (removePlayer players cfg st playerId).1.captainId
      = (if st.captainId = some playerId then none else st.captainId) := by rw [heq1]
  have htr1 : (removePlayer players cfg st playerId).1.transfersUsed
      = st.transfersUsed + 1 := by rw [heq1]
  have herase : (removePlayer players cfg st playerId).1.selectedPlayers
      = st.selectedPlayers.erase playerId := by
    rw [hsel1]
    exact filter_ne_eq_erase _ _ hnodup
  have hnotmem1 : (removePlayer players cfg st playerId).1.selectedPlayers.contains playerId
      = false := by
    rw [hsel1]
    simp
  have hlen1 : (removePlayer players cfg st playerId).1.selectedPlayers.length
      < round.playersAllowed := by
    rw [herase, List.length_erase_of_mem hmem]
    have hpos2 : 0 < st.selectedPlayers.length :=
      List.length_pos.mpr (List.ne_nil_of_mem hmem)
    omega
  have hperm : List.Perm st.selectedPlayers
      (playerId :: (removePlayer players cfg st playerId).1.selectedPlayers) := by
    rw [herase]
    exact List.perm_cons_erase hmem
  have hsplit : spentOn players st.selectedPlayers
      = player.price + spentOn players (removePlayer players cfg st playerId).1.selectedPlayers := by
    rw [spentOn_perm players hperm]
    simp [spentOn, priceOf, hfind]
  have hbud1 : ∀ b, round.budget = some b →
      player.price ≤ b - spentOn players (removePlayer players cfg st playerId).1.selectedPlayers := by
    intro b hb
    have hs := hspent b hb
    omega
  have hcan : canSelectPlayer players rounds currentRound
      (removePlayer players cfg st playerId).1.selectedPlayers playerId = true :=
    canSelectPlayer_of players rounds currentRound _ playerId round player
      hround hnotmem1 hlen1 hfind hbud1
  have hok2 : (selectPlayer players rounds currentRound
      (removePlayer players cfg st playerId).1 playerId).2 = SelectResult.ok :=
    selectPlayer_isOk players rounds currentRound _ playerId hpos (by rw [hfind]; rfl) hcan
  rcases selectPlayer_cases players rounds currentRound
      (removePlayer players cfg st playerId).1 playerId with ⟨hne2, _⟩ | ⟨_, _, heq2⟩
  · exact absurd hok2 hne2
  refine ⟨hok, hok2, ?_, ?_, ?_⟩
  · intro q
    rw [heq2]
    dsimp only
    rw [hsel1]
    constructor
    · intro hq
      rcases List.mem_append.mp hq with hq | hq
      · exact (List.mem_filter.mp hq).1
      · simp only [List.mem_singleton] at hq
        subst hq
        exact hmem
    · intro hq
      by_cases hqp : q = playerId
      · subst hqp
        exact List.mem_append.mpr (Or.inr (by simp))
      · exact List.mem_append.mpr (Or.inl (List.mem_filter.mpr ⟨hq, by simp [hqp]⟩))
  · rw [heq2]
    dsimp only
    exact hcap1
  · rw [heq2]
    dsimp only
    exact htr1

/-- Witness for C6 (amended) on the roster `[1, 2]` with captain 2:
removing player 1 and re-selecting it keeps both members, keeps captain 2,
and uses one transfer. -/
theorem remove_then_select_amended_witness :
    (removePlayer demoPlayers demoCfg ⟨[1, 2], some 2, 0, 0⟩ 1).2 = RemoveResult.ok
    ∧ (selectPlayer demoPlayers [demoRound] 1
        (removePlayer demoPlayers demoCfg ⟨[1, 2], some 2, 0, 0⟩ 1).1 1).2 = SelectResult.ok
    ∧ ((1 : Int) ∈ (selectPlayer demoPlayers [demoRound] 1
        (removePlayer demoPlayers demoCfg ⟨[1, 2], some 2, 0, 0⟩ 1).1 1).1.selectedPlayers
        ↔ (1 : Int) ∈ (GameState.mk [1, 2] (some 2) 0 0).selectedPlayers)
    ∧ (selectPlayer demoPlayers [demoRound] 1
        (removePlayer demoPlayers demoCfg ⟨[1, 2], some 2, 0, 0⟩ 1).1 1).1.captainId
        = (if (GameState.mk [1, 2] (some 2) 0 0).captainId = some 1 then none
           else (GameState.mk [1, 2] (some 2) 0 0).captainId)
    ∧ (selectPlayer demoPlayers [demoRound] 1
        (removePlayer demoPlayers demoCfg ⟨[1, 2], some 2, 0, 0⟩ 1).1 1).1.transfersUsed
        = 0 + 1 := by
  obtain ⟨w1, w2, w3, w4, w5⟩ :=
    remove_then_select_amended demoPlayers [demoRound] 1 demoCfg
      ⟨[1, 2], some 2, 0, 0⟩ 1 ⟨1, "Ahmed", 5000000, true, 0⟩ demoRound
      (by decide) (by decide) (by decide) (by decide) (by decide) (by decide)
      (by intro b hb; simp [demoRound] at hb; subst hb; decide)
  exact ⟨w1, w2, w3 1, w4, w5⟩

end FantasyCompetition
